import Mathlib

/-!
Verification of the `restfileserver` repository's JSON/REST file handler
(`weaverest/json_file_handler.py`, the handler implementation present in the
source tree) against its natural-language specification.

The embedding below models:
  * the filesystem codec `fs_encode` / `fs_decode` (`str.encode` /
    `bytes.decode` with the `surrogateescape` error handler, for the default
    configured encoding UTF-8); Python `str` values are modelled as lists of
    code points (`PyStr`), byte strings as lists of naturals below 256;
  * the path resolver `get_full_path` together with faithful models of
    `posixpath.join` and `posixpath.normpath` (paths are lists of characters);
  * the JSON data model, the `jsonschema` validation of `POST_SCHEMA` and
    `PUT_SCHEMA`, and Python's `int(s, 8)`;
  * the `error_handler` decorator's exception-to-response mapping;
  * the GET / POST / PUT / DELETE handler bodies as state transformers over
    an abstract association-list filesystem, with POSIX `open`, `mkdir`,
    `unlink` and `rmdir` semantics made explicit.

Timestamps (`mtime` / `ctime`) and the permission checks performed by the
kernel on `os.open` are outside every claim considered here and are elided
from the filesystem model; everything else follows the Python source.
-/

/-- Python `str` values may contain lone surrogates (produced by the
`surrogateescape` error handler), which Lean `Char` cannot represent, so
Python strings are modelled as lists of code points. -/
abbrev PyStr := List Nat

/-- View a Lean string literal as a Python string (list of code points). -/
def pys (s : String) : PyStr := s.data.map Char.toNat

/-- Whether a byte is a UTF-8 continuation byte (0x80-0xBF). -/
def utf8Cont (b : Nat) : Bool := 0x80 ≤ b && b ≤ 0xBF

/-- Parse one UTF-8 encoded scalar value starting at lead byte `b0` with the
following bytes `rest`.  Returns the code point together with the number of
bytes consumed from `rest`, or `none` when no valid (shortest-form,
non-surrogate, `≤ U+10FFFF`) sequence starts here.  This mirrors the
validity checks of CPython's UTF-8 decoder. -/
def utf8Parse1 (b0 : Nat) (rest : List Nat) : Option (Nat × Nat) :=
  if b0 < 0x80 then some (b0, 0)
  else if 0xC2 ≤ b0 && b0 ≤ 0xDF then
    match rest with
    | b1 :: _ =>
      if utf8Cont b1 then some ((b0 - 0xC0) * 0x40 + (b1 - 0x80), 1) else none
    | [] => none
  else if 0xE0 ≤ b0 && b0 ≤ 0xEF then
    match rest with
    | b1 :: b2 :: _ =>
      let lo1 := if b0 = 0xE0 then 0xA0 else 0x80
      let hi1 := if b0 = 0xED then 0x9F else 0xBF
      if lo1 ≤ b1 && b1 ≤ hi1 && utf8Cont b2 then
        some ((b0 - 0xE0) * 0x1000 + (b1 - 0x80) * 0x40 + (b2 - 0x80), 2)
      else none
    | _ => none
  else if 0xF0 ≤ b0 && b0 ≤ 0xF4 then
    match rest with
    | b1 :: b2 :: b3 :: _ =>
      let lo1 := if b0 = 0xF0 then 0x90 else 0x80
      let hi1 := if b0 = 0xF4 then 0x8F else 0xBF
      if lo1 ≤ b1 && b1 ≤ hi1 && utf8Cont b2 && utf8Cont b3 then
        some ((b0 - 0xF0) * 0x40000 + (b1 - 0x80) * 0x1000
              + (b2 - 0x80) * 0x40 + (b3 - 0x80), 3)
      else none
    | _ => none
  else none

/-- Recursion core of `fs_decode`.  The `fuel` argument only makes the
recursion structural (each step consumes at least one byte, so any
`fuel ≥ bs.length` gives the same answer); the zero-fuel case is unreachable
under that bound. -/
def fs_decodeAux : Nat → List Nat → PyStr
  | _, [] => []
  | 0, _ => []
  | fuel + 1, b0 :: rest =>
    match utf8Parse1 b0 rest with
    | some (cp, k) => cp :: fs_decodeAux fuel (rest.drop k)
    | none => (0xDC00 + b0) :: fs_decodeAux fuel rest

/-- Model of `JsonFileHandler.fs_decode`: `data.decode(encoding,
errors="surrogateescape")` for the default encoding UTF-8.  Valid sequences
decode to their scalar value; each byte that is not part of a valid sequence
becomes the lone surrogate `0xDC00 + byte`.  Decoding is total: it never
fails, matching the handler's docstring. -/
def fs_decode (bs : List Nat) : PyStr :=
  fs_decodeAux bs.length bs

/-- UTF-8 encoding of a single code point under the `surrogateescape` error
handler: surrogates `0xDC80`-`0xDCFF` map back to the single byte they came
from, any other surrogate cannot be encoded (`UnicodeEncodeError`), and
ordinary scalar values take their standard 1-4 byte form. -/
def utf8EncodeChar (cp : Nat) : Option (List Nat) :=
  if cp < 0x80 then some [cp]
  else if cp < 0x800 then some [0xC0 + cp / 0x40, 0x80 + cp % 0x40]
  else if 0xDC80 ≤ cp && cp ≤ 0xDCFF then some [cp - 0xDC00]
  else if 0xD800 ≤ cp && cp ≤ 0xDFFF then none
  else if cp < 0x10000 then
    some [0xE0 + cp / 0x1000, 0x80 + cp / 0x40 % 0x40, 0x80 + cp % 0x40]
  else if cp < 0x110000 then
    some [0xF0 + cp / 0x40000, 0x80 + cp / 0x1000 % 0x40,
          0x80 + cp / 0x40 % 0x40, 0x80 + cp % 0x40]
  else none

/-- Model of `JsonFileHandler.fs_encode`: `data.encode(encoding,
errors="surrogateescape")` for UTF-8.  Returns `none` when some character
cannot be represented (Python raises `UnicodeEncodeError`). -/
def fs_encode (s : PyStr) : Option (List Nat) :=
  match s with
  | [] => some []
  | cp :: rest =>
    match utf8EncodeChar cp, fs_encode rest with
    | some bs, some tail => some (bs ++ tail)
    | _, _ => none

/-- Request and filesystem paths, modelled as lists of characters (the
handler manipulates them with `str` operations before the final
`fs_encode`). -/
abbrev FPath := List Char

/-- View a Lean string literal as a path. -/
def pathStr (s : String) : FPath := s.data

/-- Model of Python `path.split("/")`. -/
def splitSlash : FPath → List FPath
  | [] => [[]]
  | c :: rest =>
    if c = '/' then [] :: splitSlash rest
    else
      match splitSlash rest with
      | s :: ss => (c :: s) :: ss
      | [] => [[c]]

/-- The `initial_slashes` count of `posixpath.normpath`: 1 for an absolute
path, except 2 when the path starts with exactly two slashes (POSIX keeps
an implementation-defined `//` prefix). -/
def initialSlashes (p : FPath) : Nat :=
  match p with
  | '/' :: '/' :: '/' :: _ => 1
  | '/' :: '/' :: _ => 2
  | '/' :: _ => 1
  | _ => 0

/-- The component-processing loop of `posixpath.normpath`: drop empty and
`.` components; `..` pops the last kept component, except that it is kept
verbatim at the start of a relative path or after a kept `..`, and dropped
at the root of an absolute path. -/
def normComps (ns : Nat) (comps : List FPath) : List FPath :=
  comps.foldl
    (fun acc comp =>
      if comp = [] ∨ comp = ['.'] then acc
      else if comp ≠ ['.', '.'] ∨ (ns = 0 ∧ acc = []) ∨
          (acc ≠ [] ∧ acc.getLast? = some ['.', '.']) then
        acc ++ [comp]
      else if acc ≠ [] then acc.dropLast
      else acc)
    []

/-- Model of `posixpath.normpath`. -/
def normpath (p : FPath) : FPath :=
  if p = [] then ['.']
  else
    let ns := initialSlashes p
    let res := List.replicate ns '/' ++ List.intercalate ['/'] (normComps ns (splitSlash p))
    if res = [] then ['.'] else res

/-- Model of two-argument `posixpath.join`: an absolute second argument
discards the first. -/
def pathJoin (a b : FPath) : FPath :=
  match b with
  | '/' :: _ => b
  | _ =>
    if a = [] ∨ a.getLast? = some '/' then a ++ b
    else a ++ '/' :: b

/-- Model of `JsonFileHandler.get_full_path`: join the request path onto a
virtual root `/`, lexically normalize, then join the tail onto the serving
directory.  The trailing `fs_encode` of the source only converts the text
path to bytes (it is injective by the round-trip theorem), so the path
computation is modelled at the text level. -/
def get_full_path (serve_dir obj_path : FPath) : FPath :=
  let op := normpath (pathJoin ['/'] obj_path)
  if op = ['/'] then serve_dir
  else pathJoin serve_dir (op.drop 1)

/-- The sandbox property claimed by `get_full_path`'s docstring: the result
is the serving directory itself or lexically below it. -/
def isWithinRoot (root p : FPath) : Bool :=
  p == root || (root ++ ['/']).isPrefixOf p

/-- Recursion core of `octalRep`; the fuel only makes the division recursion
structural (any `fuel ≥ n` is enough). -/
def octalRepAux : Nat → Nat → List Nat
  | 0, n => [n % 8]
  | fuel + 1, n => if n < 8 then [n] else octalRepAux fuel (n / 8) ++ [n % 8]

/-- Octal digits of `n`, most significant first: the digits of Python's
`"%o" % n`. -/
def octalRep (n : Nat) : List Nat :=
  octalRepAux n n

/-- Model of the f-string format `f"{n:03o}"` used by `get` to render the
permission bits: the octal digits of `n`, zero-padded on the left to a
minimum width of three, as a Python string of digit code points. -/
def formatMode (n : Nat) : PyStr :=
  let ds := (octalRep n).map (fun d => 0x30 + d)
  List.replicate (3 - ds.length) 0x30 ++ ds

/-- Model of `stat.S_IMODE`: the permission bits `m & 0o7777`. -/
def S_IMODE (m : Nat) : Nat := m % 0o10000

/-- Model of `stat.S_IFMT`: the file-type bits `m & 0o170000`. -/
def S_IFMT (m : Nat) : Nat := m / 0o10000 % 0o20 * 0o10000

/-- Model of `stat.S_ISREG`. -/
def S_ISREG (m : Nat) : Bool := S_IFMT m = 0o100000

/-- Model of `stat.S_ISDIR`. -/
def S_ISDIR (m : Nat) : Bool := S_IFMT m = 0o040000

/-- Model of `JsonFileHandler.FILE_TYPES.get(fmt, "unknown")`. -/
def FILE_TYPES (fmt : Nat) : String :=
  if fmt = 0o040000 then "directory"
  else if fmt = 0o020000 then "character device"
  else if fmt = 0o060000 then "block device"
  else if fmt = 0o100000 then "file"
  else if fmt = 0o010000 then "named pipe"
  else if fmt = 0o120000 then "symbolic link"
  else if fmt = 0o140000 then "socket file"
  else "unknown"

/-- JSON values as produced by `json.loads` and consumed by `self.write`.
Object entries model the parsed `dict` (keys unique, schema keys are ASCII
so Lean strings suffice); string values are Python strings (`PyStr`) since
file data may contain lone surrogates.  Floats do not occur in any claim
and numbers are modelled as integers. -/
inductive Json where
  | null
  | bool (b : Bool)
  | num (n : Int)
  | str (s : PyStr)
  | arr (elems : List Json)
  | obj (entries : List (String × Json))

/-- First-match association lookup in a JSON object (entries have unique
keys, so this models `dict.get`). -/
def lookupKey (kvs : List (String × Json)) (k : String) : Option Json :=
  match kvs with
  | [] => none
  | (k2, v) :: rest => if k2 = k then some v else lookupKey rest k

/-- Object-member lookup on a JSON value. -/
def jlookup (j : Json) (k : String) : Option Json :=
  match j with
  | .obj kvs => lookupKey kvs k
  | _ => none

/-- The `jsonschema` check of a `{"type": "string"}` property: satisfied
when the key is absent or maps to a string. -/
def propOkStr (kvs : List (String × Json)) (k : String) : Bool :=
  match lookupKey kvs k with
  | none => true
  | some (.str _) => true
  | some _ => false

/-- The `jsonschema` check of a `{"type": "boolean"}` property. -/
def propOkBool (kvs : List (String × Json)) (k : String) : Bool :=
  match lookupKey kvs k with
  | none => true
  | some (.bool _) => true
  | some _ => false

/-- Model of `jsonschema.validate(json_data, POST_SCHEMA)` as a predicate:
the value must be an object whose `data` member, which must be present
(`required`), is a string.  No other member is constrained
(`additionalProperties` is not set in the schema). -/
def validatePost (j : Json) : Bool :=
  match j with
  | .obj kvs => propOkStr kvs "data" && (lookupKey kvs "data").isSome
  | _ => false

/-- Model of `jsonschema.validate(json_data, PUT_SCHEMA)` as a predicate:
the value must be an object; `directory` must be a boolean if present,
`mode` and `data` strings if present; nothing is required and no other
member is constrained. -/
def validatePut (j : Json) : Bool :=
  match j with
  | .obj kvs => propOkBool kvs "directory" && propOkStr kvs "mode" && propOkStr kvs "data"
  | _ => false

/-- Whether a code point is an octal digit character. -/
def isOctDigitCp (c : Nat) : Bool := 0x30 ≤ c && c ≤ 0x37

/-- Model of Python `int(s, 8)` for the strings the handler meets: an
optional `0o`/`0O` prefix followed by one or more octal digit characters;
anything else raises `ValueError` (`none`).  The full CPython grammar also
strips whitespace and accepts a sign and underscore separators; none of
those occur in any claim. -/
def pyIntOctal (s : PyStr) : Option Nat :=
  let digits :=
    match s with
    | 0x30 :: 0x6F :: rest => rest
    | 0x30 :: 0x4F :: rest => rest
    | _ => s
  if digits ≠ [] ∧ digits.all isOctDigitCp then
    some (digits.foldl (fun a c => a * 8 + (c - 0x30)) 0)
  else none

/-- The Python exceptions that can reach the `error_handler` decorator or
the handlers' local `try` blocks. -/
inductive PyException where
  | fileNotFound
  | permissionError
  | errorResponse (message : String) (status : Nat)
  | fileExists
  | isADirectory
  | notADirectory
  | osError (detail : String)
  | valueError (detail : String)
deriving DecidableEq

/-- Model of the `error_handler` decorator: the handler body either wrote a
response (`ok`) or raised; `FileNotFoundError` and `PermissionError` map to
fixed responses, `ErrorResponse` carries its own status and message, and
every other exception is logged and surfaced only as a generic 500 with no
internal detail. -/
def error_handler (r : Except PyException (Nat × String)) : Nat × String :=
  match r with
  | .ok resp => resp
  | .error .fileNotFound => (404, "file not found")
  | .error .permissionError => (422, "permission denied")
  | .error (.errorResponse msg status) => (status, msg)
  | .error .fileExists => (500, "internal server error")
  | .error .isADirectory => (500, "internal server error")
  | .error .notADirectory => (500, "internal server error")
  | .error (.osError _) => (500, "internal server error")
  | .error (.valueError _) => (500, "internal server error")

/-- A filesystem object as seen through `os.fstat`: the full `st_mode`
(type bits and permission bits), owner ids, and, for regular files, the
content bytes (`st_size` is the content length).  Timestamps are elided
(no claim mentions them). -/
structure FsNode where
  st_mode : Nat
  st_uid : Nat
  st_gid : Nat
  content : List Nat
deriving DecidableEq

/-- The filesystem state: an association list from absolute paths to
objects (first match wins; paths are unique). -/
abbrev Fs := List (FPath × FsNode)

/-- Path lookup. -/
def lookupFs (fs : Fs) (p : FPath) : Option FsNode :=
  match fs with
  | [] => none
  | (q, n) :: rest => if q = p then some n else lookupFs rest p

/-- Replace-or-add an entry. -/
def setFs (fs : Fs) (p : FPath) (n : FsNode) : Fs :=
  match fs with
  | [] => [(p, n)]
  | (q, m) :: rest => if q = p then (p, n) :: rest else (q, m) :: setFs rest p n

/-- Remove an entry. -/
def removeFs (fs : Fs) (p : FPath) : Fs :=
  match fs with
  | [] => []
  | (q, m) :: rest => if q = p then rest else (q, m) :: removeFs rest p

/-- Parent directory of an absolute path: everything before the final
slash (the root's parent is the root). -/
def parentOf (p : FPath) : FPath :=
  let q := (p.reverse.dropWhile (fun c => ¬ c = '/')).drop 1
  if q = [] then ['/'] else q.reverse

/-- Final path component. -/
def baseNameOf (p : FPath) : FPath :=
  (p.reverse.takeWhile (fun c => ¬ c = '/')).reverse

/-- Whether a path names an existing directory. -/
def isDirFs (fs : Fs) (p : FPath) : Bool :=
  match lookupFs fs p with
  | some n => S_ISDIR n.st_mode
  | none => false

/-- POSIX semantics of `os.open(path, O_WRONLY | O_APPEND)` followed by
`os.write`, as used by `post`: the target must exist (`ENOENT` →
`FileNotFoundError`), must not be a directory (`EISDIR` →
`IsADirectoryError`), and the bytes are appended at end-of-file. -/
def openAppendWrite (fs : Fs) (p : FPath) (data : List Nat) : Except PyException Fs :=
  match lookupFs fs p with
  | none => .error .fileNotFound
  | some n =>
    if S_ISDIR n.st_mode then .error .isADirectory
    else .ok (setFs fs p { n with content := n.content ++ data })

/-- POSIX semantics of `os.open(path, O_WRONLY | O_CREAT | O_TRUNC, mode)`
followed by `os.write`, as used by `put`: an existing directory raises
`IsADirectoryError`; an existing file is truncated and rewritten and its
permission bits are untouched (the `mode` argument applies only at
creation); a new file is created with the given permission bits when the
parent directory exists. -/
def openTruncWrite (fs : Fs) (p : FPath) (mode : Nat) (data : List Nat) :
    Except PyException Fs :=
  match lookupFs fs p with
  | some n =>
    if S_ISDIR n.st_mode then .error .isADirectory
    else .ok (setFs fs p { n with content := data })
  | none =>
    if isDirFs fs (parentOf p) then
      .ok (setFs fs p ⟨0o100000 + S_IMODE mode, 0, 0, data⟩)
    else .error .fileNotFound

/-- POSIX semantics of `os.mkdir(path, mode)`. -/
def mkdirFs (fs : Fs) (p : FPath) (mode : Nat) : Except PyException Fs :=
  if (lookupFs fs p).isSome then .error .fileExists
  else if isDirFs fs (parentOf p) then .ok (setFs fs p ⟨0o040000 + S_IMODE mode, 0, 0, []⟩)
  else if (lookupFs fs (parentOf p)).isSome then .error .notADirectory
  else .error .fileNotFound

/-- POSIX semantics of `os.unlink`. -/
def unlinkFs (fs : Fs) (p : FPath) : Except PyException Fs :=
  match lookupFs fs p with
  | none => .error .fileNotFound
  | some n =>
    if S_ISDIR n.st_mode then .error .isADirectory
    else .ok (removeFs fs p)

/-- POSIX semantics of `os.rmdir` on an existing directory: fails with
`OSError(ENOTEMPTY)` when some other entry lives directly below it. -/
def rmdirFs (fs : Fs) (p : FPath) : Except PyException Fs :=
  if fs.any (fun e => parentOf e.1 == p && e.1 ≠ p) then
    .error (.osError "ENOTEMPTY")
  else .ok (removeFs fs p)

/-- Lexicographic code-point order on Python strings (the order used by
`sorted` on `str`). -/
def pyStrLt (a b : PyStr) : Bool :=
  match a, b with
  | [], [] => false
  | [], _ :: _ => true
  | _ :: _, [] => false
  | x :: xs, y :: ys => if x < y then true else if y < x then false else pyStrLt xs ys

/-- Insert into a sorted list (insertion sort step). -/
def insertSorted (x : PyStr) (l : List PyStr) : List PyStr :=
  match l with
  | [] => [x]
  | y :: ys => if pyStrLt x y then x :: y :: ys else y :: insertSorted x ys

/-- Model of `sorted` on a list of Python strings. -/
def sortPyStrs (l : List PyStr) : List PyStr :=
  match l with
  | [] => []
  | x :: xs => insertSorted x (sortPyStrs xs)

/-- Model of `JsonFileHandler.get` (the body wrapped by `error_handler`).
The path is resolved, the object opened and `fstat`-ed (a missing object
gives `FileNotFoundError`, hence 404 through `error_handler`); common
metadata fields are rendered; regular files carry `data` (or `data: null`
plus a message when `st_size` exceeds `max_size`, with exactly `st_size`
bytes read otherwise); directories carry the sorted, codec-decoded child
names.  `mtime`/`ctime` and the kernel read-permission check are elided. -/
def get_handler (fs : Fs) (max_size : Nat) (serve_dir obj_path : FPath) : Nat × Json :=
  let full_path := get_full_path serve_dir obj_path
  match lookupFs fs full_path with
  | none => (404, Json.obj [("message", Json.str (pys "file not found"))])
  | some node =>
    let base := [("mode", Json.str (formatMode (S_IMODE node.st_mode))),
                 ("uid", Json.num node.st_uid),
                 ("gid", Json.num node.st_gid),
                 ("type", Json.str (pys (FILE_TYPES (S_IFMT node.st_mode))))]
    if S_ISREG node.st_mode then
      if node.content.length > max_size then
        (200, Json.obj (base ++ [("data", Json.null),
                                 ("message", Json.str (pys "file too long"))]))
      else
        (200, Json.obj (base ++
          [("data", Json.str (fs_decode (node.content.take node.content.length)))]))
    else if S_ISDIR node.st_mode then
      (200, Json.obj (base ++ [("children", Json.arr
        ((sortPyStrs ((fs.filter (fun e => parentOf e.1 == full_path && e.1 ≠ full_path)).map
          (fun e => (baseNameOf e.1).map Char.toNat))).map Json.str))]))
    else
      (200, Json.obj base)

/-- The string field `kvs.get(key, dflt)` once the schema guaranteed the
member is a string when present. -/
def getStrField (kvs : List (String × Json)) (k : String) (dflt : PyStr) : PyStr :=
  match lookupKey kvs k with
  | some (.str s) => s
  | _ => dflt

/-- The boolean field `kvs.get("directory", False)` once the schema
guaranteed the member is a boolean when present. -/
def getDirectoryFlag (kvs : List (String × Json)) : Bool :=
  match lookupKey kvs "directory" with
  | some (.bool b) => b
  | _ => false

/-- Model of `JsonFileHandler.post` (the body wrapped by `error_handler`),
from the parsed JSON body onward (the upstream content-type/charset/JSON
parsing errors are orthogonal fixed 400 responses).  Returns the new
filesystem together with the response status and message. -/
def post_handler (fs : Fs) (serve_dir obj_path : FPath) (body : Json) :
    Fs × Nat × String :=
  if validatePost body = false then
    (fs, 400, "data does not match expected schema")
  else
    let kvs := match body with | .obj kvs => kvs | _ => []
    let data := getStrField kvs "data" []
    match fs_encode data with
    | none => (fs, 400, "cannot encode 'data'")
    | some write_data =>
      let full_path := get_full_path serve_dir obj_path
      match openAppendWrite fs full_path write_data with
      | .error .isADirectory => (fs, 400, "cannot append to directory")
      | .error e => (fs, error_handler (.error e))
      | .ok fs2 => (fs2, 200, "data written")

/-- Model of `JsonFileHandler.put` (the body wrapped by `error_handler`),
from the parsed JSON body onward.  Note `int(str_mode, 8)` runs before the
filesystem is touched; its `ValueError` is uncaught and reaches
`error_handler`'s generic branch. -/
def put_handler (fs : Fs) (serve_dir obj_path : FPath) (body : Json) :
    Fs × Nat × String :=
  if validatePut body = false then
    (fs, 400, "data does not match expected schema")
  else
    let kvs := match body with | .obj kvs => kvs | _ => []
    let directory := getDirectoryFlag kvs
    let str_mode := getStrField kvs "mode" (if directory then pys "775" else pys "664")
    let data := getStrField kvs "data" []
    match pyIntOctal str_mode with
    | none => (fs, error_handler (.error (.valueError "invalid literal for int with base 8")))
    | some imode =>
      let mode := S_IMODE imode
      let full_path := get_full_path serve_dir obj_path
      if directory then
        match mkdirFs fs full_path mode with
        | .error .fileExists => (fs, 400, "file already exists")
        | .error e => (fs, error_handler (.error e))
        | .ok fs2 => (fs2, 200, "object updated")
      else
        match fs_encode data with
        | none => (fs, 400, "cannot encode 'data'")
        | some write_data =>
          match openTruncWrite fs full_path mode write_data with
          | .error .isADirectory => (fs, 400, "cannot write to directory")
          | .error e => (fs, error_handler (.error e))
          | .ok fs2 => (fs2, 200, "object updated")

/-- Model of `JsonFileHandler.delete` (the body wrapped by `error_handler`).
The root comparison `full_path == self.fs_encode(self.serve_dir)` is done
at the text level (`fs_encode` is injective).  `os.unlink` on a directory
raises `IsADirectoryError`, upon which `os.rmdir` is attempted and any
`OSError` from it is reported as `directory not empty`. -/
def delete_handler (fs : Fs) (serve_dir obj_path : FPath) : Fs × Nat × String :=
  let full_path := get_full_path serve_dir obj_path
  if full_path = serve_dir then
    (fs, 400, "refusing to delete root directory")
  else
    match unlinkFs fs full_path with
    | .ok fs2 => (fs2, 200, "file deleted")
    | .error .isADirectory =>
      match rmdirFs fs full_path with
      | .ok fs2 => (fs2, 200, "file deleted")
      | .error _ => (fs, 400, "directory not empty")
    | .error e => (fs, error_handler (.error e))

/-- A small concrete filesystem used by witnesses and counterexamples: a
serving root `/srv` (mode 777) containing the regular file `foo` (mode 644,
content `"hi"`), the empty directory `sub` (mode 775), and the directory
`tmpdir` carrying the sticky bit (mode 1777). -/
def fsEx : Fs :=
  [(pathStr "/srv", ⟨0o040777, 7, 7, []⟩),
   (pathStr "/srv/foo", ⟨0o100644, 7, 7, [104, 105]⟩),
   (pathStr "/srv/sub", ⟨0o040775, 7, 7, []⟩),
   (pathStr "/srv/tmpdir", ⟨0o041777, 7, 7, []⟩)]

theorem utf8EncodeChar_escape (b0 : Nat) (h1 : 0x80 ≤ b0) (h2 : b0 < 0x100) :
    utf8EncodeChar (0xDC00 + b0) = some [b0] := by
  unfold utf8EncodeChar
  split_ifs with g1 g2 g3 <;> simp_all <;> omega

theorem utf8Parse1_none_ge (b0 : Nat) (rest : List Nat)
    (h : utf8Parse1 b0 rest = none) : 0x80 ≤ b0 := by
  by_contra hlt
  unfold utf8Parse1 at h
  rw [if_pos (by omega)] at h
  simp at h

set_option maxHeartbeats 1000000 in
theorem utf8Parse1_encode (b0 : Nat) (rest : List Nat) (cp k : Nat)
    (h : utf8Parse1 b0 rest = some (cp, k)) :
    utf8EncodeChar cp = some (b0 :: rest.take k) ∧ k ≤ rest.length := by
  unfold utf8Parse1 at h
  rw [ite_eq_iff] at h
  rcases h with ⟨h1, h⟩ | ⟨h1, h⟩
  · simp only [Option.some.injEq, Prod.mk.injEq] at h
    obtain ⟨rfl, rfl⟩ := h
    refine ⟨?_, by omega⟩
    unfold utf8EncodeChar
    rw [if_pos h1]
    simp
  rw [ite_eq_iff] at h
  rcases h with ⟨h2, h⟩ | ⟨h2, h⟩
  · simp only [Bool.and_eq_true, decide_eq_true_eq] at h2
    rcases rest with _ | ⟨b1, t⟩
    · simp at h
    · simp only [utf8Cont, ite_eq_iff, Bool.and_eq_true, decide_eq_true_eq,
        Option.some.injEq, Prod.mk.injEq, reduceCtorEq, and_false, or_false] at h
      obtain ⟨hc, rfl, rfl⟩ := h
      refine ⟨?_, by simp⟩
      unfold utf8EncodeChar
      split_ifs <;> simp_all <;> omega
  rw [ite_eq_iff] at h
  rcases h with ⟨h3, h⟩ | ⟨h3, h⟩
  · simp only [Bool.and_eq_true, decide_eq_true_eq] at h3
    rcases rest with _ | ⟨b1, _ | ⟨b2, t⟩⟩
    · simp at h
    · simp at h
    · simp only [utf8Cont, ite_eq_iff, Bool.and_eq_true, decide_eq_true_eq,
        Option.some.injEq, Prod.mk.injEq, reduceCtorEq, and_false, or_false] at h
      obtain ⟨hc, rfl, rfl⟩ := h
      refine ⟨?_, by simp⟩
      by_cases hb0 : b0 = 0xE0
      · subst hb0
        norm_num at hc
        unfold utf8EncodeChar
        split_ifs <;> simp_all <;> omega
      · by_cases hbd : b0 = 0xED
        · subst hbd
          norm_num at hc
          unfold utf8EncodeChar
          split_ifs <;> simp_all <;> omega
        · simp only [if_neg hb0, if_neg hbd] at hc
          unfold utf8EncodeChar
          split_ifs <;> simp_all <;> omega
  rw [ite_eq_iff] at h
  rcases h with ⟨h4, h⟩ | ⟨h4, h⟩
  · simp only [Bool.and_eq_true, decide_eq_true_eq] at h4
    rcases rest with _ | ⟨b1, _ | ⟨b2, _ | ⟨b3, t⟩⟩⟩
    · simp at h
    · simp at h
    · simp at h
    · simp only [utf8Cont, ite_eq_iff, Bool.and_eq_true, decide_eq_true_eq,
        Option.some.injEq, Prod.mk.injEq, reduceCtorEq, and_false, or_false] at h
      obtain ⟨hc, rfl, rfl⟩ := h
      refine ⟨?_, by simp⟩
      by_cases hb0 : b0 = 0xF0
      · subst hb0
        norm_num at hc
        unfold utf8EncodeChar
        split_ifs <;> simp_all <;> omega
      · by_cases hbd : b0 = 0xF4
        · subst hbd
          norm_num at hc
          unfold utf8EncodeChar
          split_ifs <;> simp_all <;> omega
        · simp only [if_neg hb0, if_neg hbd] at hc
          unfold utf8EncodeChar
          split_ifs <;> simp_all <;> omega
  · simp at h

theorem fs_decodeAux_encode (fuel : Nat) :
    ∀ bs : List Nat, bs.length ≤ fuel → (∀ b ∈ bs, b < 256) →
    fs_encode (fs_decodeAux fuel bs) = some bs := by
  induction fuel with
  | zero =>
    intro bs hlen hb
    have : bs = [] := List.length_eq_zero.mp (Nat.le_zero.mp hlen)
    subst this
    rfl
  | succ fuel ih =>
    intro bs hlen hb
    match bs with
    | [] => rfl
    | b0 :: rest =>
      simp only [fs_decodeAux]
      cases hp : utf8Parse1 b0 rest with
      | none =>
        simp only [fs_encode]
        rw [utf8EncodeChar_escape b0 (utf8Parse1_none_ge b0 rest hp)
            (hb b0 (by simp)),
          ih rest (by simpa using Nat.le_of_succ_le_succ hlen)
            (fun b hbm => hb b (List.mem_cons_of_mem _ hbm))]
        simp
      | some val =>
        obtain ⟨cp, k⟩ := val
        obtain ⟨henc, hk⟩ := utf8Parse1_encode b0 rest cp k hp
        simp only [fs_encode]
        rw [henc,
          ih (rest.drop k)
            (by simp only [List.length_drop]; simp at hlen; omega)
            (fun b hbm => hb b (List.mem_cons_of_mem _ (List.drop_subset k rest hbm)))]
        simp

theorem lookupFs_setFs_self (fs : Fs) (p : FPath) (n : FsNode) :
    lookupFs (setFs fs p n) p = some n := by
  induction fs with
  | nil => simp [setFs, lookupFs]
  | cons e rest ih =>
    obtain ⟨q, m⟩ := e
    by_cases hq : q = p
    · simp [setFs, lookupFs, hq]
    · simp [setFs, lookupFs, hq, ih]

theorem octalRepAux_lt8 (fuel m : Nat) (h : m < 8) : octalRepAux fuel m = [m] := by
  cases fuel with
  | zero => simp [octalRepAux, Nat.mod_eq_of_lt h]
  | succ f => simp [octalRepAux, h]

theorem octalRepAux_step (fuel m : Nat) (hm : 8 ≤ m) (hf : 1 ≤ fuel) :
    octalRepAux fuel m = octalRepAux (fuel - 1) (m / 8) ++ [m % 8] := by
  cases fuel with
  | zero => omega
  | succ f => simp [octalRepAux, Nat.not_lt.mpr hm]

theorem octalRep_length (m : Nat) (h : m < 4096) :
    (octalRep m).length =
      if m < 8 then 1 else if m < 64 then 2 else if m < 512 then 3 else 4 := by
  unfold octalRep
  by_cases h1 : m < 8
  · rw [octalRepAux_lt8 m m h1]
    simp [h1]
  · by_cases h2 : m < 64
    · rw [octalRepAux_step m m (by omega) (by omega),
        octalRepAux_lt8 (m - 1) (m / 8) (by omega)]
      simp [h1, h2]
    · by_cases h3 : m < 512
      · rw [octalRepAux_step m m (by omega) (by omega),
          octalRepAux_step (m - 1) (m / 8) (by omega) (by omega),
          octalRepAux_lt8 (m - 1 - 1) (m / 8 / 8) (by omega)]
        simp [h1, h2, h3]
      · rw [octalRepAux_step m m (by omega) (by omega),
          octalRepAux_step (m - 1) (m / 8) (by omega) (by omega),
          octalRepAux_step (m - 1 - 1) (m / 8 / 8) (by omega) (by omega),
          octalRepAux_lt8 (m - 1 - 1 - 1) (m / 8 / 8 / 8) (by omega)]
        simp [h1, h2, h3]

theorem splitSlash_no_slash (p : FPath) : ∀ c ∈ splitSlash p, '/' ∉ c := by
  induction p with
  | nil => simp [splitSlash]
  | cons ch rest ih =>
    by_cases h : ch = '/'
    · subst h
      simp only [splitSlash, if_pos rfl]
      intro c hc
      rcases List.mem_cons.mp hc with rfl | hc
      · simp
      · exact ih c hc
    · simp only [splitSlash, if_neg h]
      rcases hs : splitSlash rest with _ | ⟨s, ss⟩
      · intro c hc
        rcases List.mem_cons.mp hc with rfl | hc
        · simp only [List.mem_singleton]
          intro hh
          exact h hh.symm
        · simp at hc
      · intro c hc
        rcases List.mem_cons.mp hc with rfl | hc
        · have hns : '/' ∉ s := ih s (by rw [hs]; exact List.mem_cons_self _ _)
          simp only [List.mem_cons]
          intro hh
          rcases hh with hh | hh
          · exact h hh.symm
          · exact hns hh
        · exact ih c (by rw [hs]; exact List.mem_cons_of_mem _ hc)

theorem normComps_inv (ns : Nat) (comps : List FPath) :
    ∀ acc : List FPath, (∀ c ∈ acc, c ≠ [] ∧ '/' ∉ c) →
    (∀ c ∈ comps, '/' ∉ c) →
    ∀ c ∈ comps.foldl
      (fun acc comp =>
        if comp = [] ∨ comp = ['.'] then acc
        else if comp ≠ ['.', '.'] ∨ (ns = 0 ∧ acc = []) ∨
            (acc ≠ [] ∧ acc.getLast? = some ['.', '.']) then
          acc ++ [comp]
        else if acc ≠ [] then acc.dropLast
        else acc)
      acc, c ≠ [] ∧ '/' ∉ c := by
  induction comps with
  | nil => intro acc hacc _ c hc; exact hacc c hc
  | cons comp rest ih =>
    intro acc hacc hcomps c hc
    simp only [List.foldl_cons] at hc
    refine ih _ ?_ (fun d hd => hcomps d (List.mem_cons_of_mem _ hd)) c hc
    intro d hd
    split_ifs at hd with g1 g2 g3
    · exact hacc d hd
    · rcases List.mem_append.mp hd with hd | hd
      · exact hacc d hd
      · have : d = comp := by simpa using hd
        subst this
        refine ⟨?_, hcomps d (List.mem_cons_self _ _)⟩
        intro hnil
        exact g1 (Or.inl hnil)
    · exact hacc d (List.dropLast_subset _ hd)
    · exact hacc d hd

theorem intercalate_slash_head (c : FPath) (cs : List FPath) :
    ∃ t, List.intercalate ['/'] (c :: cs) = c ++ t := by
  cases cs with
  | nil => exact ⟨[], by simp [List.intercalate, List.intersperse]⟩
  | cons d ds =>
    refine ⟨'/' :: List.intercalate ['/'] (d :: ds), ?_⟩
    simp [List.intercalate, List.intersperse]

theorem pathJoin_virtual_root (b : FPath) : ∃ t, pathJoin ['/'] b = '/' :: t := by
  match b with
  | [] => exact ⟨[], rfl⟩
  | ch :: bt =>
    by_cases h : ch = '/'
    · subst h
      exact ⟨bt, rfl⟩
    · refine ⟨ch :: bt, ?_⟩
      simp [pathJoin, h]

/-- Every request path, after the join with the virtual root, starts with
either one effective slash (the common case) or exactly two (the POSIX
`//` corner preserved by `normpath`). -/
theorem initialSlashes_join (b : FPath) :
    initialSlashes (pathJoin ['/'] b) = 1 ∨ initialSlashes (pathJoin ['/'] b) = 2 := by
  obtain ⟨t, ht⟩ := pathJoin_virtual_root b
  rw [ht]
  rcases t with _ | ⟨a, t2⟩
  · left
    rfl
  · by_cases ha : a = '/'
    · subst ha
      rcases t2 with _ | ⟨b2, t3⟩
      · right
        rfl
      · by_cases hb : b2 = '/'
        · subst hb
          left
          rfl
        · right
          simp [initialSlashes, hb]
    · left
      simp [initialSlashes, ha]

/-- Complement of the escape below: for every request path whose join with
the virtual root starts with a single effective slash — that is, everything
except the exactly-two-slash corner — the resolved path is the serving
directory or lexically below it (the serving directory is a canonical
absolute path, hence non-empty with no trailing slash). -/
theorem get_full_path_within_root_single_slash (serve_dir obj_path : FPath)
    (hroot1 : serve_dir ≠ [])
    (hroot2 : serve_dir.getLast? ≠ some '/')
    (hns : initialSlashes (pathJoin ['/'] obj_path) = 1) :
    isWithinRoot serve_dir (get_full_path serve_dir obj_path) = true := by
  obtain ⟨jt, hj⟩ := pathJoin_virtual_root obj_path
  rw [hj] at hns
  unfold get_full_path
  rw [hj]
  have hop : normpath ('/' :: jt) =
      '/' :: List.intercalate ['/'] (normComps 1 (splitSlash ('/' :: jt))) := by
    unfold normpath
    rw [if_neg (by simp)]
    simp only [hns, List.replicate, List.nil_append, List.cons_append]
    rw [if_neg (by simp)]
  rw [hop]
  rcases hcs : normComps 1 (splitSlash ('/' :: jt)) with _ | ⟨c, cs⟩
  · simp [isWithinRoot, List.intercalate]
  · have hcmem : c ≠ [] ∧ '/' ∉ c := by
      have hmem : c ∈ normComps 1 (splitSlash ('/' :: jt)) := by
        rw [hcs]
        exact List.mem_cons_self _ _
      simp only [normComps] at hmem
      exact normComps_inv 1 (splitSlash ('/' :: jt)) [] (by simp)
        (splitSlash_no_slash _) c hmem
    obtain ⟨t, hct⟩ := intercalate_slash_head c cs
    simp only [hct]
    rw [if_neg (by
      cases c with
      | nil => exact absurd rfl hcmem.1
      | cons x xs => simp)]
    cases c with
    | nil => exact absurd rfl hcmem.1
    | cons x xs =>
      have hx : x ≠ '/' := fun hh => hcmem.2 (hh ▸ List.mem_cons_self x xs)
      simp only [List.drop_succ_cons, List.drop_zero, List.cons_append]
      rw [show pathJoin serve_dir (x :: (xs ++ t)) =
          serve_dir ++ '/' :: (x :: (xs ++ t)) from by
        simp [pathJoin, hx, hroot1, hroot2]]
      unfold isWithinRoot
      have hpre : serve_dir ++ '/' :: (x :: (xs ++ t)) =
          (serve_dir ++ ['/']) ++ (x :: (xs ++ t)) := by simp
      rw [hpre]
      have : (serve_dir ++ ['/']).isPrefixOf ((serve_dir ++ ['/']) ++ (x :: (xs ++ t))) = true := by
        rw [List.isPrefixOf_iff_prefix]
        exact List.prefix_append _ _
      rw [this]
      simp

/-- C1.  The claim states that `get_full_path` always yields the root or a
lexical descendant of it, for every client-supplied path.  It is false: a
request path starting with exactly two slashes survives `normpath` (POSIX
`//` prefix) and then `os.path.join(serve_dir, ...)` discards the root
because its second argument is absolute, so `//etc` resolves to `/etc`,
outside the root — contradicting `get_full_path`'s own docstring. -/
theorem get_full_path_double_slash_escape :
    get_full_path (pathStr "/srv/data") (pathStr "//etc") = pathStr "/etc" ∧
    isWithinRoot (pathStr "/srv/data")
      (get_full_path (pathStr "/srv/data") (pathStr "//etc")) = false := by
  decide

/-- C2.  For every byte sequence, decoding with the configured codec
(UTF-8 with `surrogateescape`) is total, maps each invalid byte to one
reversible placeholder code point, and re-encoding restores the original
bytes exactly: `fs_encode (fs_decode b) = some b`. -/
theorem codec_surrogateescape_roundtrip (bs : List Nat) (hb : ∀ b ∈ bs, b < 256) :
    fs_encode (fs_decode bs) = some bs :=
  fs_decodeAux_encode bs.length bs le_rfl hb

theorem codec_surrogateescape_roundtrip_witness :
    (∀ b ∈ [0xff, 0x61, 0xf0, 0x9f, 0xed, 0xa0, 0x80, 0xc0, 0xaf], b < 256) ∧
    fs_encode (fs_decode [0xff, 0x61, 0xf0, 0x9f, 0xed, 0xa0, 0x80, 0xc0, 0xaf]) =
      some [0xff, 0x61, 0xf0, 0x9f, 0xed, 0xa0, 0x80, 0xc0, 0xaf] :=
  ⟨by decide,
   codec_surrogateescape_roundtrip [0xff, 0x61, 0xf0, 0x9f, 0xed, 0xa0, 0x80, 0xc0, 0xaf]
     (by decide)⟩

/-- C3.  The `error_handler` decorator translates an escaping
`FileNotFoundError` to 404 `file not found`, an escaping `PermissionError`
to 422 `permission denied`, and every other uncategorized exception —
whatever detail it carries — to 500 `internal server error`, never echoing
the detail to the client. -/
theorem error_handler_exception_translation :
    error_handler (.error .fileNotFound) = (404, "file not found") ∧
    error_handler (.error .permissionError) = (422, "permission denied") ∧
    (∀ d, error_handler (.error (.osError d)) = (500, "internal server error")) ∧
    (∀ d, error_handler (.error (.valueError d)) = (500, "internal server error")) ∧
    error_handler (.error .fileExists) = (500, "internal server error") ∧
    error_handler (.error .isADirectory) = (500, "internal server error") ∧
    error_handler (.error .notADirectory) = (500, "internal server error") :=
  ⟨rfl, rfl, fun _ => rfl, fun _ => rfl, rfl, rfl, rfl⟩

/-- C4.  The claim says a PUT with `directory == true` on an existing
target responds 422.  The code responds 400: `put` catches the
`FileExistsError` from `os.mkdir` and raises
`ErrorResponse("file already exists", status=400)`.  (The repository's own
tests, `tests/test_handler.py`, assert 422 for this response.)  This
theorem evaluates the handler on any state whose resolved target exists. -/
theorem put_existing_directory_target_responds_400 (fs : Fs) (sd op : FPath)
    (node : FsNode) (h : lookupFs fs (get_full_path sd op) = some node) :
    put_handler fs sd op (Json.obj [("directory", Json.bool true)]) =
      (fs, 400, "file already exists") := by
  simp +decide [put_handler, mkdirFs, h,
    show getDirectoryFlag [("directory", Json.bool true)] = true from rfl,
    show getStrField [("directory", Json.bool true)] "mode" (pys "775") = pys "775" from rfl,
    show pyIntOctal (pys "775") = some 509 from rfl]

theorem put_existing_directory_target_responds_400_witness :
    put_handler fsEx (pathStr "/srv") (pathStr "/foo")
        (Json.obj [("directory", Json.bool true)]) =
      (fsEx, 400, "file already exists") :=
  put_existing_directory_target_responds_400 fsEx (pathStr "/srv") (pathStr "/foo")
    ⟨0o100644, 7, 7, [104, 105]⟩ (by rfl)

/-- C5.  The claim says a POST whose resolved target is a directory
responds 422.  The code responds 400: `post` catches the
`IsADirectoryError` from the append-mode `os.open` and raises
`ErrorResponse("cannot append to directory", status=400)`.  (The
repository's tests assert 422 for this response.) -/
theorem post_directory_target_responds_400 (fs : Fs) (sd op : FPath) (node : FsNode)
    (h : lookupFs fs (get_full_path sd op) = some node)
    (hdir : S_ISDIR node.st_mode = true) :
    post_handler fs sd op (Json.obj [("data", Json.str (pys "x"))]) =
      (fs, 400, "cannot append to directory") := by
  simp +decide [post_handler, openAppendWrite, h, hdir,
    show getStrField [("data", Json.str (pys "x"))] "data" [] = pys "x" from rfl,
    show fs_encode (pys "x") = some [120] from rfl]

theorem post_directory_target_responds_400_witness :
    post_handler fsEx (pathStr "/srv") (pathStr "/sub")
        (Json.obj [("data", Json.str (pys "x"))]) =
      (fsEx, 400, "cannot append to directory") :=
  post_directory_target_responds_400 fsEx (pathStr "/srv") (pathStr "/sub")
    ⟨0o040775, 7, 7, []⟩ (by rfl) (by rfl)

/-- C6.  The claim says DELETE on the root responds 422 with no filesystem
change.  The filesystem is indeed untouched and the message matches, but
the code responds 400: `delete` raises
`ErrorResponse("refusing to delete root directory", status=400)`.  (The
repository's tests assert 422.)  Evaluated for every state and root. -/
theorem delete_root_responds_400_unchanged (fs : Fs) (serve_dir : FPath) :
    delete_handler fs serve_dir (pathStr "/") =
      (fs, 400, "refusing to delete root directory") := by
  have h1 : get_full_path serve_dir (pathStr "/") = serve_dir := by
    simp only [get_full_path]
    rw [show normpath (pathJoin ['/'] (pathStr "/")) = ['/'] from rfl]
    simp
  simp only [delete_handler, h1, if_pos]

/-- C7.  GET on a regular file: when `st_size` strictly exceeds the
configured maximum the response is still 200 with `data: null` and a
`file too long` message; otherwise the response is 200 and `data` is the
codec-decoded full content of exactly `st_size` bytes. -/
theorem get_regular_file_size_limit (fs : Fs) (max_size : Nat) (sd op : FPath)
    (node : FsNode)
    (h : lookupFs fs (get_full_path sd op) = some node)
    (hreg : S_ISREG node.st_mode = true) :
    (node.content.length > max_size →
      (get_handler fs max_size sd op).1 = 200 ∧
      jlookup (get_handler fs max_size sd op).2 "data" = some Json.null ∧
      jlookup (get_handler fs max_size sd op).2 "message" =
        some (Json.str (pys "file too long"))) ∧
    (node.content.length ≤ max_size →
      (get_handler fs max_size sd op).1 = 200 ∧
      jlookup (get_handler fs max_size sd op).2 "data" =
        some (Json.str (fs_decode node.content))) := by
  constructor
  · intro hsz
    simp +decide [get_handler, h, hreg, hsz, jlookup, lookupKey]
  · intro hsz
    simp +decide [get_handler, h, hreg, Nat.not_lt.mpr hsz, jlookup, lookupKey,
      List.take_length]

theorem get_regular_file_size_limit_witness :
    ((get_handler fsEx 1 (pathStr "/srv") (pathStr "/foo")).1 = 200 ∧
     jlookup (get_handler fsEx 1 (pathStr "/srv") (pathStr "/foo")).2 "data" =
       some Json.null ∧
     jlookup (get_handler fsEx 1 (pathStr "/srv") (pathStr "/foo")).2 "message" =
       some (Json.str (pys "file too long"))) ∧
    ((get_handler fsEx 100 (pathStr "/srv") (pathStr "/foo")).1 = 200 ∧
     jlookup (get_handler fsEx 100 (pathStr "/srv") (pathStr "/foo")).2 "data" =
       some (Json.str (fs_decode [104, 105]))) :=
  ⟨(get_regular_file_size_limit fsEx 1 (pathStr "/srv") (pathStr "/foo")
      ⟨0o100644, 7, 7, [104, 105]⟩ (by rfl) (by rfl)).1 (by decide),
   (get_regular_file_size_limit fsEx 100 (pathStr "/srv") (pathStr "/foo")
      ⟨0o100644, 7, 7, [104, 105]⟩ (by rfl) (by rfl)).2 (by decide)⟩

/-- C8, counterexample.  The claim that `mode` is always rendered as
exactly three octal digits and that a non-octal `mode` string in a PUT is
rejected as a 400 schema mismatch is false: a GET on a directory with the
sticky bit (permission bits `0o1777`) renders a four-digit `"1777"`, and a
PUT with `mode: "999"` passes schema validation (the schema only requires a
string) and then `int("999", 8)` raises an uncaught `ValueError`,
producing a 500, not a 400. -/
theorem mode_digits_claim_counterexample :
    jlookup (get_handler fsEx 100 (pathStr "/srv") (pathStr "/tmpdir")).2 "mode" =
      some (Json.str (pys "1777")) ∧
    (pys "1777").length ≠ 3 ∧
    put_handler fsEx (pathStr "/srv") (pathStr "/newfile")
        (Json.obj [("mode", Json.str (pys "999")), ("data", Json.str (pys ""))]) =
      (fsEx, 500, "internal server error") :=
  ⟨rfl, by decide, rfl⟩

/-- C8, amended.  The mode is rendered as its octal digits zero-padded to
a minimum width of three: exactly three digits whenever the permission
bits fit in `0o777` and four when setuid/setgid/sticky bits are present;
the PUT schema accepts any JSON string as `mode`, and a `mode` string
rejected by `int(s, 8)` escapes as an uncategorized `ValueError`, surfacing
as 500 `internal server error` rather than a 400 schema mismatch. -/
theorem mode_rendering_and_schema_amended :
    (∀ m, m ≤ 0o777 → (formatMode m).length = 3) ∧
    (∀ m, 0o777 < m → m ≤ 0o7777 → (formatMode m).length = 4) ∧
    (∀ s, validatePut (Json.obj [("mode", Json.str s)]) = true) ∧
    (∀ (fs : Fs) (sd op : FPath) (s : PyStr), pyIntOctal s = none →
      put_handler fs sd op (Json.obj [("mode", Json.str s)]) =
        (fs, 500, "internal server error")) := by
  refine ⟨?_, ?_, ?_, ?_⟩
  · intro m hm
    have hl := octalRep_length m (by omega)
    unfold formatMode
    simp only [List.length_append, List.length_replicate, List.length_map]
    rw [hl]
    split_ifs at hl ⊢ <;> omega
  · intro m hm1 hm2
    have hl := octalRep_length m (by omega)
    unfold formatMode
    simp only [List.length_append, List.length_replicate, List.length_map]
    rw [hl]
    split_ifs at hl ⊢ <;> omega
  · intro s
    simp +decide [validatePut, propOkBool, propOkStr, lookupKey]
  · intro fs sd op s hnone
    have hv : ¬ validatePut (Json.obj [("mode", Json.str s)]) = false := by
      simp +decide [validatePut, propOkBool, propOkStr, lookupKey]
    unfold put_handler
    rw [if_neg hv]
    simp +decide [getDirectoryFlag, getStrField, lookupKey, hnone, error_handler]

theorem mode_rendering_and_schema_amended_witness :
    (formatMode 0o644).length = 3 ∧
    (formatMode 0o4755).length = 4 ∧
    validatePut (Json.obj [("mode", Json.str (pys "999"))]) = true ∧
    put_handler fsEx (pathStr "/srv") (pathStr "/newf")
        (Json.obj [("mode", Json.str (pys "999"))]) =
      (fsEx, 500, "internal server error") :=
  ⟨mode_rendering_and_schema_amended.1 0o644 (by decide),
   mode_rendering_and_schema_amended.2.1 0o4755 (by decide) (by decide),
   mode_rendering_and_schema_amended.2.2.1 (pys "999"),
   mode_rendering_and_schema_amended.2.2.2 fsEx (pathStr "/srv") (pathStr "/newf")
     (pys "999") (by decide)⟩

/-- C9.  A PUT with file semantics (`directory` absent or false) on a path
where an object already exists never changes that object's `st_mode`,
whatever `mode` value the body carries: the mode passed to `os.open` with
`O_CREAT` applies only at creation.  This covers every outcome of the
handler (validation failure, bad mode, encode failure, directory target,
and the successful truncate-and-write). -/
theorem put_preserves_existing_mode (fs : Fs) (sd op : FPath)
    (kvs : List (String × Json)) (node : FsNode)
    (h : lookupFs fs (get_full_path sd op) = some node)
    (hfile : getDirectoryFlag kvs = false)
    (node2 : FsNode)
    (h2 : lookupFs (put_handler fs sd op (Json.obj kvs)).1 (get_full_path sd op) =
      some node2) :
    node2.st_mode = node.st_mode := by
  unfold put_handler at h2
  by_cases hv : validatePut (Json.obj kvs) = false
  · rw [if_pos hv] at h2
    rw [h] at h2
    injection h2 with h3
    rw [← h3]
  · rw [if_neg hv] at h2
    simp only [hfile, Bool.false_eq_true, if_false] at h2
    rcases hm : pyIntOctal (getStrField kvs "mode" (pys "664")) with _ | imode
    · simp only [hm] at h2
      rw [h] at h2
      injection h2 with h3
      rw [← h3]
    · simp only [hm] at h2
      rcases he : fs_encode (getStrField kvs "data" []) with _ | wd
      · simp only [he] at h2
        rw [h] at h2
        injection h2 with h3
        rw [← h3]
      · simp only [he] at h2
        rw [show openTruncWrite fs (get_full_path sd op) (S_IMODE imode) wd =
            (if S_ISDIR node.st_mode then Except.error PyException.isADirectory
             else Except.ok (setFs fs (get_full_path sd op)
               { node with content := wd })) from by
          simp [openTruncWrite, h]] at h2
        by_cases hd : S_ISDIR node.st_mode
        · simp only [hd, if_true] at h2
          rw [h] at h2
          injection h2 with h3
          rw [← h3]
        · simp only [hd, Bool.false_eq_true, if_false] at h2
          rw [lookupFs_setFs_self] at h2
          injection h2 with h3
          rw [← h3]

theorem put_preserves_existing_mode_witness :
    (⟨0o100644, 7, 7, [110, 101, 119]⟩ : FsNode).st_mode =
      (⟨0o100644, 7, 7, [104, 105]⟩ : FsNode).st_mode :=
  put_preserves_existing_mode fsEx (pathStr "/srv") (pathStr "/foo")
    [("data", Json.str (pys "new")), ("mode", Json.str (pys "777"))]
    ⟨0o100644, 7, 7, [104, 105]⟩ (by rfl) (by rfl)
    ⟨0o100644, 7, 7, [110, 101, 119]⟩ (by rfl)

/-- C10.  The POST and PUT schemas constrain only their listed properties
and never reject extra keys: an object whose `data` member is a string
passes the POST schema whatever else it contains, prepending an unrelated
key changes neither validation verdict, and an object whose listed members
have the right types passes the PUT schema. -/
theorem schemas_ignore_extra_properties :
    (∀ kvs s, lookupKey kvs "data" = some (Json.str s) →
      validatePost (Json.obj kvs) = true) ∧
    (∀ (k : String) (v : Json) kvs, k ≠ "data" →
      validatePost (Json.obj ((k, v) :: kvs)) = validatePost (Json.obj kvs)) ∧
    (∀ kvs, propOkBool kvs "directory" = true → propOkStr kvs "mode" = true →
      propOkStr kvs "data" = true → validatePut (Json.obj kvs) = true) ∧
    (∀ (k : String) (v : Json) kvs, k ≠ "directory" → k ≠ "mode" → k ≠ "data" →
      validatePut (Json.obj ((k, v) :: kvs)) = validatePut (Json.obj kvs)) := by
  refine ⟨?_, ?_, ?_, ?_⟩
  · intro kvs s h
    simp [validatePost, propOkStr, h]
  · intro k v kvs hk
    simp [validatePost, propOkStr, lookupKey, hk]
  · intro kvs h1 h2 h3
    simp [validatePut, h1, h2, h3]
  · intro k v kvs h1 h2 h3
    simp [validatePut, propOkBool, propOkStr, lookupKey, h1, h2, h3]

theorem schemas_ignore_extra_properties_witness :
    validatePost (Json.obj [("data", Json.str (pys "x")), ("extra", Json.num 5)]) = true ∧
    validatePost (Json.obj (("extra2", Json.null) ::
        [("data", Json.str (pys "x"))])) =
      validatePost (Json.obj [("data", Json.str (pys "x"))]) ∧
    validatePut (Json.obj [("directory", Json.bool true), ("weird", Json.arr [])]) = true ∧
    validatePut (Json.obj (("other", Json.num 3) ::
        [("mode", Json.str (pys "644"))])) =
      validatePut (Json.obj [("mode", Json.str (pys "644"))]) :=
  ⟨schemas_ignore_extra_properties.1 _ _ (by rfl),
   schemas_ignore_extra_properties.2.1 _ _ _ (by decide),
   schemas_ignore_extra_properties.2.2.1 _ (by rfl) (by rfl) (by rfl),
   schemas_ignore_extra_properties.2.2.2 _ _ _ (by decide) (by decide) (by decide)⟩
